import Mathlib

/-!
Shallow embedding of `dispaset/preprocessing/data_check.py` and proofs about
its checking routines.

Pandas/numpy floating-point scalars are modelled by the type `F` below
(a finite rational, NaN, or +infinity); table cells by `Value` (a number,
NaN, or a string).  Each checker is modelled as a function into `CheckM`,
which records the emitted log messages (level plus structured message) and
the final outcome: normal return, `sys.exit(code)`, or a raised exception.
-/

set_option maxRecDepth 4000
set_option linter.unusedVariables false

namespace DataCheck

/-! Exact rational arithmetic, expressed through `mkRat` so that the kernel
can evaluate it (the `Rat` field operations are irreducible); each helper is
proved equal to the corresponding field operation. -/

def qAdd (a b : ℚ) : ℚ := mkRat (a.num * b.den + b.num * a.den) (a.den * b.den)

def qMul (a b : ℚ) : ℚ := mkRat (a.num * b.num) (a.den * b.den)

def qDiv (a b : ℚ) : ℚ :=
  if 0 ≤ b.num then mkRat (a.num * b.den) (a.den * b.num.natAbs)
  else mkRat (-(a.num * b.den)) (a.den * b.num.natAbs)

@[simp] theorem qAdd_eq (a b : ℚ) : qAdd a b = a + b := by
  rw [qAdd, Rat.mkRat_eq_div]
  have ha : ((a.den : ℚ)) ≠ 0 := by exact_mod_cast a.den_nz
  have hb : ((b.den : ℚ)) ≠ 0 := by exact_mod_cast b.den_nz
  conv_rhs => rw [← Rat.num_div_den a, ← Rat.num_div_den b]
  push_cast
  field_simp

@[simp] theorem qMul_eq (a b : ℚ) : qMul a b = a * b := by
  rw [qMul, Rat.mkRat_eq_div]
  have ha : ((a.den : ℚ)) ≠ 0 := by exact_mod_cast a.den_nz
  have hb : ((b.den : ℚ)) ≠ 0 := by exact_mod_cast b.den_nz
  conv_rhs => rw [← Rat.num_div_den a, ← Rat.num_div_den b]
  push_cast
  field_simp

@[simp] theorem qDiv_eq (a b : ℚ) : qDiv a b = a / b := by
  rcases eq_or_ne b 0 with hb | hb
  · subst hb
    rw [qDiv]
    norm_num [Rat.mkRat_eq_div]
  · have hbn : b.num ≠ 0 := Rat.num_ne_zero.mpr hb
    have ha : ((a.den : ℚ)) ≠ 0 := by exact_mod_cast a.den_nz
    have hbd : ((b.den : ℚ)) ≠ 0 := by exact_mod_cast b.den_nz
    rcases le_or_lt 0 b.num with h | h
    · rw [qDiv, if_pos h, Rat.mkRat_eq_div]
      have hcast : ((a.den * b.num.natAbs : ℕ) : ℚ) = (a.den : ℚ) * (b.num : ℚ) := by
        push_cast [Int.cast_natAbs]
        rw [abs_of_nonneg (by exact_mod_cast h)]
      rw [hcast]
      conv_rhs => rw [← Rat.num_div_den a, ← Rat.num_div_den b]
      push_cast
      field_simp
    · rw [qDiv, if_neg (not_le.mpr h), Rat.mkRat_eq_div]
      have hcast : ((a.den * b.num.natAbs : ℕ) : ℚ) = (a.den : ℚ) * (-(b.num : ℚ)) := by
        push_cast [Int.cast_natAbs]
        rw [abs_of_neg (by exact_mod_cast h)]
      rw [hcast]
      conv_rhs => rw [← Rat.num_div_den a, ← Rat.num_div_den b]
      push_cast
      field_simp

/-- Model of a numpy/pandas float scalar: a finite rational, NaN or +inf.
The sign of infinity is not modelled (the source only produces `+np.inf`),
and division by zero is mapped to NaN. -/
inductive F where
  | q (x : ℚ)
  | nan
  | inf
deriving DecidableEq

namespace F

def add : F → F → F
  | q a, q b => q (qAdd a b)
  | inf, q _ => inf
  | q _, inf => inf
  | inf, inf => inf
  | _, _ => nan

def mul : F → F → F
  | q a, q b => q (qMul a b)
  | inf, q b => if b = 0 then nan else inf
  | q b, inf => if b = 0 then nan else inf
  | inf, inf => inf
  | _, _ => nan

def div : F → F → F
  | q a, q b => if b = 0 then nan else q (qDiv a b)
  | inf, q b => if b = 0 then nan else inf
  | q _, inf => q 0
  | _, _ => nan

@[simp] theorem add_qq (a b : ℚ) : add (q a) (q b) = q (a + b) := by
  rw [add, qAdd_eq]

@[simp] theorem mul_qq (a b : ℚ) : mul (q a) (q b) = q (a * b) := by
  rw [mul, qMul_eq]

theorem div_qq (a b : ℚ) (hb : b ≠ 0) : div (q a) (q b) = q (a / b) := by
  rw [div, if_neg hb, qDiv_eq]

/-- Python `a < b` on floats: any comparison involving NaN is false. -/
def lt : F → F → Bool
  | q a, q b => decide (a < b)
  | q _, inf => true
  | _, _ => false

/-- Python `a > b` on floats. -/
def gt (a b : F) : Bool := lt b a

/-- Python `a != b` on floats: NaN is different from everything, itself included. -/
def pyNe : F → F → Bool
  | q a, q b => decide (a ≠ b)
  | nan, _ => true
  | _, nan => true
  | inf, inf => false
  | inf, q _ => true
  | q _, inf => true

def isnan : F → Bool
  | nan => true
  | _ => false

/-- Python `min(a, b)`: returns `b` when `b < a`, else `a` (so NaN in the
first position wins, as in CPython). -/
def pyMin (a b : F) : F := if lt b a then b else a

end F

/-- A table cell as read from pandas: a numeric value, a missing value
(NaN), or a string. -/
inductive Value where
  | num (x : ℚ)
  | nan
  | str (s : String)
deriving DecidableEq

namespace Value

/-- Python `type(x) == str` / `isinstance(x, str)`. -/
def isStr : Value → Bool
  | str _ => true
  | _ => false

/-- Python `np.isnan` on a table cell (only called on non-string cells in the source). -/
def isNanV : Value → Bool
  | nan => true
  | _ => false

/-- Python `pd.isnull`. -/
def isNullV : Value → Bool
  | nan => true
  | _ => false

/-- How a cell is rendered when used as a label or inside a formatted message. -/
def toLabel : Value → String
  | str s => s
  | num x => toString x
  | nan => "nan"

end Value

/-- Embed a float back into a cell (used when the source overwrites a table
value with a computed float; the source never stores +inf). -/
def valOfF : F → Value
  | .q x => .num x
  | _ => .nan

/-- Severity levels of the `logging` module as used by the source. -/
inductive Level where
  | debug
  | info
  | warning
  | error
  | critical
deriving DecidableEq

/-- Structured log messages: one constructor per `logging.*` call site,
carrying the data interpolated into the corresponding Python message. -/
inductive Msg where
  | nunitsNotInteger
  | nunitsAbsent
  | missingField (key : String)
  | nonNumericValue (key : String)
  | missingDataUnit (u : String) (key : String)
  | numericInStrCol (key : String)
  | emptyValue (u : String) (key : String)
  | duplicateUnits (dups : List String) (zones : List String)
  | valueBelow (key : String) (plantlist : List String)
  | valueNotStrictlyAbove (key : String) (plantlist : List String)
  | valueAbove (key : String) (plantlist : List String)
  | valueAboveHorizon (key : String) (hours : ℚ) (plantlist : List String)
  | chpMissingField (key : String)
  | chpNonNumeric (key : String)
  | chpMissingData (u : String) (key : String)
  | chpNumericInStr (key : String)
  | chpEmptyValue (u : String) (key : String)
  | badCHPType (u : String) (val : String)
  | badPowerToHeat (u : String) (v : F)
  | badPowerLossFactor (u : String) (v : F)
  | backpressureLossNonzero (u : String) (v : F)
  | maxHeatNotIgnored (given : F) (derived : F)
  | chpEffDebug (u : String) (eff : F)
  | chpEffUnrealistic (u : String) (eff : F)
  | chpEffHigh (u : String) (eff : F)
  | maxHeatShutsDown (u : String) (v : F)
  | stoCapLow (u : String) (cap : F) (qdot : F)
  | stoCapHigh (u : String) (cap : F) (qdot : F)
  | selfDisNegative (u : String) (pct : F)
  | selfDisVeryHigh (u : String) (pct : F)
  | selfDisTooHigh (u : String) (pct : F)
  | capacityMismatch (tech : String) (fuel : String) (pOld pNew : ℚ)
  | storageMismatch (sOld sNew : ℚ)
  | afMissingFatal (u t : String)
  | afEmpty (u t : String) (n : ℕ)
  | afAlwaysOne (u t : String)
  | afOutOfRange (u t : String) (nUp nDo : ℕ)
  | afMissingDefault (u t : String)
  | hdNotFound (u : String)
  | hdZero (u : String)
  | hdInvalidType (u : String)
  | hdPthUndefined (u : String)
  | hdAboveQmax (u : String) (dmax qmax : F)
  | hdBelowQmin (u : String) (dmin qmin : F)
  | hdNoPlant (u : String)
deriving DecidableEq

/-- Final outcome of running a checker: normal return, `sys.exit(code)`,
or a raised exception. -/
inductive Outcome (α : Type) where
  | ok (a : α)
  | exit (code : ℕ)
  | raise (msg : String)
deriving DecidableEq

/-- A checker computation: the log it emits plus its outcome. -/
structure CheckM (α : Type) where
  log : List (Level × Msg)
  out : Outcome α
deriving DecidableEq

def CheckM.bind : CheckM α → (α → CheckM β) → CheckM β
  | ⟨l, .ok a⟩, f => ⟨l ++ (f a).log, (f a).out⟩
  | ⟨l, .exit c⟩, _ => ⟨l, .exit c⟩
  | ⟨l, .raise s⟩, _ => ⟨l, .raise s⟩

instance : Monad CheckM where
  pure a := ⟨[], .ok a⟩
  bind := CheckM.bind

/-- Python `logging.<lvl>(msg)`. -/
def logAt (lvl : Level) (m : Msg) : CheckM Unit := ⟨[(lvl, m)], .ok ()⟩

/-- Python `sys.exit(c)`. -/
def exitWith (c : ℕ) : CheckM α := ⟨[], .exit c⟩

/-- Python `raise SomeException(s)`. -/
def raiseExc (s : String) : CheckM α := ⟨[], .raise s⟩

/-- Sequential `for` loop over a list (early-terminated by exits/raises
through the bind of `CheckM`). -/
def iterate (f : α → CheckM Unit) : List α → CheckM Unit
  | [] => pure ()
  | x :: xs => CheckM.bind (f x) (fun _ => iterate f xs)

/- Generic lemmas about `CheckM.bind` and `iterate`. -/

@[simp] theorem monad_bind_eq {α β : Type} (m : CheckM α) (f : α → CheckM β) :
    m >>= f = CheckM.bind m f := rfl

@[simp] theorem monad_pure_eq {α : Type} (a : α) :
    (pure a : CheckM α) = ⟨[], .ok a⟩ := rfl

theorem bind_ok_eq {α β : Type} (m : CheckM α) (f : α → CheckM β) (a : α)
    (h : m.out = .ok a) :
    CheckM.bind m f = ⟨m.log ++ (f a).log, (f a).out⟩ := by
  rcases m with ⟨l, o⟩
  cases o with
  | ok b => cases h; rfl
  | exit c => cases h
  | raise s => cases h

theorem bind_exit_eq {α β : Type} (m : CheckM α) (f : α → CheckM β) (c : ℕ)
    (h : m.out = .exit c) :
    CheckM.bind m f = ⟨m.log, .exit c⟩ := by
  rcases m with ⟨l, o⟩
  cases o with
  | ok b => cases h
  | exit d => cases h; rfl
  | raise s => cases h

theorem bind_raise_eq {α β : Type} (m : CheckM α) (f : α → CheckM β) (s : String)
    (h : m.out = .raise s) :
    CheckM.bind m f = ⟨m.log, .raise s⟩ := by
  rcases m with ⟨l, o⟩
  cases o with
  | ok b => cases h
  | exit d => cases h
  | raise t => cases h; rfl

theorem iterate_nil (f : α → CheckM Unit) : iterate f [] = ⟨[], .ok ()⟩ := rfl

theorem iterate_cons (f : α → CheckM Unit) (x : α) (xs : List α) :
    iterate f (x :: xs) = CheckM.bind (f x) (fun _ => iterate f xs) := rfl

/-- If every loop body succeeds silently, the loop succeeds silently. -/
theorem iterate_ok_all (f : α → CheckM Unit) (xs : List α)
    (h : ∀ x ∈ xs, f x = ⟨[], .ok ()⟩) :
    iterate f xs = ⟨[], .ok ()⟩ := by
  induction xs with
  | nil => rfl
  | cons y ys ih =>
      rw [iterate_cons, h y (List.mem_cons_self y ys),
        bind_ok_eq _ _ () (by rfl)]
      simp [ih fun x hx => h x (List.mem_cons_of_mem y hx)]

/-- A loop whose outcome is `ok` has every body outcome `ok`. -/
theorem iterate_ok_elems (f : α → CheckM Unit) (xs : List α)
    (h : (iterate f xs).out = .ok ()) :
    ∀ x ∈ xs, (f x).out = .ok () := by
  induction xs with
  | nil => intro x hx; cases hx
  | cons y ys ih =>
      intro x hx
      rw [iterate_cons] at h
      rcases hy : (f y).out with a | c | s
      · rcases List.mem_cons.mp hx with hx | hx
        · subst hx; rw [hy]
        · exact ih (by rw [bind_ok_eq _ _ () hy] at h; simpa using h) x hx
      · rw [bind_exit_eq _ _ _ hy] at h; cases h
      · rw [bind_raise_eq _ _ _ hy] at h; cases h

/-- A loop whose bodies can only exit (with a log) or succeed silently
exits exactly when some body exits. -/
theorem iterate_exit_iff (f : α → CheckM Unit) (xs : List α) (c : ℕ)
    (h : ∀ x ∈ xs, (f x).out = .ok () ∨ (f x).out = .exit c) :
    (iterate f xs).out = .exit c ↔ ∃ x ∈ xs, (f x).out = .exit c := by
  induction xs with
  | nil => simp [iterate_nil]
  | cons y ys ih =>
      rw [iterate_cons]
      rcases h y (List.mem_cons_self y ys) with hy | hy
      · rw [bind_ok_eq _ _ () hy]
        have ihs := ih fun x hx => h x (List.mem_cons_of_mem y hx)
        constructor
        · intro hx
          rcases ihs.mp (by simpa using hx) with ⟨x, hx1, hx2⟩
          exact ⟨x, List.mem_cons_of_mem y hx1, hx2⟩
        · intro hx
          rcases hx with ⟨x, hx1, hx2⟩
          rcases List.mem_cons.mp hx1 with hx1 | hx1
          · subst hx1; rw [hy] at hx2; cases hx2
          · simpa using ihs.mpr ⟨x, hx1, hx2⟩
      · rw [bind_exit_eq _ _ _ hy]
        exact ⟨fun _ => ⟨y, List.mem_cons_self y ys, hy⟩, fun _ => rfl⟩

/-- A loop that succeeds, each of whose bodies is silent when it succeeds,
is the silent success. -/
theorem iterate_ok_eq (f : α → CheckM Unit) (xs : List α)
    (hf : ∀ x ∈ xs, (f x).out = .ok () → (f x).log = [])
    (h : (iterate f xs).out = .ok ()) :
    iterate f xs = ⟨[], .ok ()⟩ := by
  induction xs with
  | nil => rfl
  | cons y ys ih =>
      have hy : (f y).out = .ok () :=
        iterate_ok_elems f (y :: ys) h y (List.mem_cons_self y ys)
      have hylog : (f y).log = [] := hf y (List.mem_cons_self y ys) hy
      have hfy : f y = ⟨[], .ok ()⟩ := by
        rcases hfe : f y with ⟨l, o⟩
        rw [hfe] at hy hylog
        simp only at hy hylog
        rw [hy, hylog]
      rw [iterate_cons] at h ⊢
      rw [bind_ok_eq _ _ () (by rw [hfy]), hfy] at h ⊢
      simp only [List.nil_append] at h ⊢
      exact ih (fun x hx => hf x (List.mem_cons_of_mem y hx)) (by simpa using h)

/-- Running a loop over `xs ++ y :: ys` where every body in `xs` succeeds
silently and the body at `y` raises silently: the whole loop raises. -/
theorem iterate_raise_at (f : α → CheckM Unit) (xs : List α) (y : α) (ys : List α)
    (s : String)
    (hxs : ∀ x ∈ xs, f x = ⟨[], .ok ()⟩) (hy : f y = ⟨[], .raise s⟩) :
    iterate f (xs ++ y :: ys) = ⟨[], .raise s⟩ := by
  induction xs with
  | nil =>
      rw [List.nil_append, iterate_cons, bind_raise_eq _ _ s (by rw [hy])]
      rw [hy]
  | cons z zs ih =>
      rw [List.cons_append, iterate_cons,
        bind_ok_eq _ _ () (by rw [hxs z (List.mem_cons_self z zs)]),
        hxs z (List.mem_cons_self z zs)]
      simp [ih fun x hx => hxs x (List.mem_cons_of_mem z hx)]

/-- Python `str.lower()`. -/
def pyLower (s : String) : String := String.mk (s.data.map Char.toLower)

/-- A table row: the cells keyed by column name. -/
abbrev Row := List (String × Value)

/-- Cell lookup within a row. -/
def Row.get (r : Row) (k : String) : Option Value :=
  (r.find? (fun c => decide (c.1 = k))).map (fun c => c.2)

/-- A pandas DataFrame as the checkers see it: an index (list of row
labels), the rows, and the list of column names (`key in plants` queries
the columns). -/
structure Table where
  index : List String
  rows : List Row
  columns : List String
deriving DecidableEq

/-- Membership test `key in plants`. -/
def Table.hasCol (t : Table) (k : String) : Bool := t.columns.contains k

/-- The rows paired with their index labels, in order (`for u in plants.index`
combined with `plants.loc[u, ...]`). -/
def Table.irows (t : Table) : List (String × Row) := t.index.zip t.rows

/-- Column access `plants[k]`: the column as a list of cells. -/
def Table.col (t : Table) (k : String) : List Value :=
  t.rows.map (fun r => (Row.get r k).getD Value.nan)

/-- Lookup `plants.loc[u, k]` on a given row: raises `KeyError` when the column is
absent. -/
def locM (r : Row) (k : String) : CheckM Value :=
  match Row.get r k with
  | some v => pure v
  | none => raiseExc ("KeyError: " ++ k)

/-- Use a cell as a float (a string operand raises `TypeError` as in a
Python arithmetic expression or comparison). -/
def valToF : Value → CheckM F
  | .num x => pure (.q x)
  | .nan => pure .nan
  | .str _ => raiseExc "TypeError"

/-- Lookup `plants.loc[u, k]` used directly as a float. -/
def locF (r : Row) (k : String) : CheckM F := do
  let v ← locM r k
  valToF v

/-! ## `check_clustering` -/

/-- A row of the unit tables handled by `check_clustering`, with the columns
that function reads (`Technology`, `Fuel`, `PowerCapacity`, `Nunits`,
`STOCapacity`), restricted to finite numeric entries. -/
structure CRow where
  Technology : String
  Fuel : String
  PowerCapacity : ℚ
  Nunits : ℚ
  STOCapacity : ℚ
deriving DecidableEq

/-- Pandas `drop_duplicates` keeping the first occurrence of each pair. -/
def dedupFirstAux (seen : List (String × String)) :
    List (String × String) → List (String × String)
  | [] => []
  | x :: xs =>
      if seen.contains x then dedupFirstAux seen xs
      else x :: dedupFirstAux (seen ++ [x]) xs

/-- All distinct (Technology, Fuel) pairs of the original table, in order of
first appearance. -/
def techPairs (plants : List CRow) : List (String × String) :=
  dedupFirstAux [] (plants.map (fun r => (r.Technology, r.Fuel)))

/-- Sum `(units.PowerCapacity * units.Nunits).sum()` over the rows matching a
(Technology, Fuel) pair. -/
def sumCap (rows : List CRow) (tech fuel : String) : ℚ :=
  ((rows.filter (fun r => decide (r.Technology = tech) && decide (r.Fuel = fuel))).map
    (fun r => r.PowerCapacity * r.Nunits)).sum

/-- The fatal condition of the per-pair capacity comparison:
`np.abs(P_old - P_new)/(P_old + 0.0001) > 0.01`. -/
def capCond (plants plants_merged : List CRow) (p : String × String) : Bool :=
  decide (|sumCap plants p.1 p.2 - sumCap plants_merged p.1 p.2| /
    (sumCap plants p.1 p.2 + 1/10000) > 1/100)

def List_tech_storage : List String := ["HDAM", "HPHS", "BATS", "BEVS", "CAES", "THMS"]

/-- Sum `(plants.STOCapacity[isstorage] * plants.Nunits[isstorage]).sum()`. -/
def totalStorage (rows : List CRow) : ℚ :=
  ((rows.filter (fun r => List_tech_storage.contains r.Technology)).map
    (fun r => r.STOCapacity * r.Nunits)).sum

/-- Non-fatal condition of the storage-capacity comparison. -/
def stoCond (plants plants_merged : List CRow) : Bool :=
  decide (|totalStorage plants - totalStorage plants_merged| /
    (totalStorage plants + 1/10000) > 1/100)

/-- Body of the per-(Technology, Fuel) loop of `check_clustering`. -/
def clusterPairBody (plants plants_merged : List CRow) (p : String × String) :
    CheckM Unit :=
  if capCond plants plants_merged p then do
    logAt .error (.capacityMismatch p.1 p.2 (sumCap plants p.1 p.2)
      (sumCap plants_merged p.1 p.2))
    exitWith 1
  else pure ()

/-- The per-pair loop of `check_clustering`. -/
def clusterLoop (plants plants_merged : List CRow) : CheckM Unit :=
  iterate (clusterPairBody plants plants_merged) (techPairs plants)

/-- The storage-capacity comparison and final `return True` of
`check_clustering`. -/
def clusterRest (plants plants_merged : List CRow) : CheckM Bool := do
  if stoCond plants plants_merged then
    logAt .error (.storageMismatch (totalStorage plants) (totalStorage plants_merged))
  else pure ()
  pure true

def check_clustering (plants plants_merged : List CRow) : CheckM Bool := do
  clusterLoop plants plants_merged
  clusterRest plants plants_merged

theorem clusterRest_out (plants plants_merged : List CRow) :
    (clusterRest plants plants_merged).out = .ok true := by
  by_cases h : stoCond plants plants_merged
  · simp [clusterRest, h, monad_bind_eq, CheckM.bind, logAt, pure]
  · simp [clusterRest, h, monad_bind_eq, CheckM.bind, pure]

theorem clusterPairBody_exit_iff (plants plants_merged : List CRow)
    (p : String × String) :
    (clusterPairBody plants plants_merged p).out = .exit 1 ↔
      capCond plants plants_merged p = true := by
  by_cases h : capCond plants plants_merged p
  · simp [clusterPairBody, h, monad_bind_eq, CheckM.bind, logAt, exitWith]
  · simp [clusterPairBody, h, pure, h]

theorem clusterPairBody_ok (plants plants_merged : List CRow)
    (p : String × String) (h : capCond plants plants_merged p = false) :
    clusterPairBody plants plants_merged p = ⟨[], .ok ()⟩ := by
  simp [clusterPairBody, h, pure]

/-- Claim C6: For every distinct (Technology, Fuel) pair of the original
table, `check_clustering` compares `Σ(PowerCapacity × Nunits)` between the
original and clustered tables and fails fatally (exit code 1) exactly when
the relative difference `|P_old − P_new| / (P_old + 0.0001)` exceeds 1%;
when no pair exceeds the tolerance, the check returns `True`. -/
theorem check_clustering_capacity_fatal_iff (plants plants_merged : List CRow) :
    ((check_clustering plants plants_merged).out = .exit 1 ↔
      ∃ p ∈ techPairs plants, capCond plants plants_merged p = true) ∧
    ((∀ p ∈ techPairs plants, capCond plants plants_merged p = false) →
      (check_clustering plants plants_merged).out = .ok true) := by
  have hbody : ∀ p ∈ techPairs plants,
      (clusterPairBody plants plants_merged p).out = .ok () ∨
      (clusterPairBody plants plants_merged p).out = .exit 1 := by
    intro p _
    by_cases h : capCond plants plants_merged p
    · exact Or.inr ((clusterPairBody_exit_iff _ _ _).mpr h)
    · left
      rw [clusterPairBody_ok _ _ _ (by simpa using h)]
  have hiter := iterate_exit_iff _ (techPairs plants) 1 hbody
  have hwhole : check_clustering plants plants_merged =
      CheckM.bind (clusterLoop plants plants_merged)
        (fun _ => clusterRest plants plants_merged) := rfl
  constructor
  · constructor
    · intro h
      rcases hl : (clusterLoop plants plants_merged).out with a | c | s
      · rw [hwhole, bind_ok_eq _ _ a hl] at h
        rw [clusterRest_out] at h
        cases h
      · rw [hwhole, bind_exit_eq _ _ c hl] at h
        cases h
        have := hiter.mp hl
        simpa [clusterPairBody_exit_iff] using this
      · rw [hwhole, bind_raise_eq _ _ s hl] at h
        cases h
    · intro h
      have hl : (clusterLoop plants plants_merged).out = .exit 1 := by
        apply hiter.mpr
        simpa [clusterPairBody_exit_iff] using h
      rw [hwhole, bind_exit_eq _ _ 1 hl]
  · intro h
    have hl : clusterLoop plants plants_merged = ⟨[], .ok ()⟩ := by
      exact iterate_ok_all _ _ fun p hp => clusterPairBody_ok _ _ _ (h p hp)
    rw [hwhole, bind_ok_eq _ _ () (by rw [hl]), clusterRest_out]

/-- Original two-unit GAS/NG table of the clustering example. -/
def cPlantsEx : List CRow :=
  [⟨"GAS", "NG", 100, 1, 0⟩, ⟨"GAS", "NG", 50, 1, 0⟩]

/-- Clustered table with conserved capacity 150. -/
def cMerged150 : List CRow := [⟨"GAS", "NG", 150, 1, 0⟩]

/-- Clustered table with capacity 140 (≈6.7% mismatch). -/
def cMerged140 : List CRow := [⟨"GAS", "NG", 140, 1, 0⟩]

/-- Witness for C6: the 100+50 vs 150 example passes, the 100+50 vs 140
example exits fatally. -/
theorem check_clustering_capacity_fatal_iff_witness :
    (check_clustering cPlantsEx cMerged150).out = .ok true ∧
    (check_clustering cPlantsEx cMerged140).out = .exit 1 :=
  ⟨(check_clustering_capacity_fatal_iff cPlantsEx cMerged150).2 (by
      norm_num +decide [capCond, sumCap, techPairs, dedupFirstAux, cPlantsEx,
        cMerged150, List.filter]),
   (check_clustering_capacity_fatal_iff cPlantsEx cMerged140).1.mpr (by
      norm_num +decide [capCond, sumCap, techPairs, dedupFirstAux, cPlantsEx,
        cMerged140, List.filter])⟩

/-- Claim C7: When every per-(Technology, Fuel) capacity difference is within
tolerance but the total storage capacity differs by more than the 1%
condition, `check_clustering` logs exactly one error message, does not
exit, and returns `True`. -/
theorem check_clustering_storage_nonfatal (plants plants_merged : List CRow)
    (hcap : ∀ p ∈ techPairs plants, capCond plants plants_merged p = false)
    (hsto : stoCond plants plants_merged = true) :
    check_clustering plants plants_merged =
      ⟨[(.error, .storageMismatch (totalStorage plants) (totalStorage plants_merged))],
        .ok true⟩ := by
  have hl : clusterLoop plants plants_merged = ⟨[], .ok ()⟩ :=
    iterate_ok_all _ _ fun p hp => clusterPairBody_ok _ _ _ (hcap p hp)
  have hwhole : check_clustering plants plants_merged =
      CheckM.bind (clusterLoop plants plants_merged)
        (fun _ => clusterRest plants plants_merged) := rfl
  rw [hwhole, bind_ok_eq _ _ () (by rw [hl]), hl]
  simp [clusterRest, hsto, monad_bind_eq, CheckM.bind, logAt, pure]

/-- Original table for the C7 witness: one HDAM storage unit, storage
capacity 100. -/
def cPlantsSto : List CRow := [⟨"HDAM", "WAT", 100, 1, 100⟩]

/-- Clustered table for the C7 witness: same power capacity, storage
capacity 50 (50% mismatch). -/
def cMergedSto : List CRow := [⟨"HDAM", "WAT", 100, 1, 50⟩]

/-- Witness for C7 at a concrete storage mismatch. -/
theorem check_clustering_storage_nonfatal_witness :
    check_clustering cPlantsSto cMergedSto =
      ⟨[(.error, .storageMismatch 100 50)], .ok true⟩ := by
  have h := check_clustering_storage_nonfatal cPlantsSto cMergedSto
    (by norm_num +decide [capCond, sumCap, techPairs, dedupFirstAux, cPlantsSto,
        cMergedSto, List.filter])
    (by norm_num +decide [stoCond, totalStorage, List_tech_storage, cPlantsSto,
        cMergedSto, List.filter])
  rw [h]
  norm_num +decide [totalStorage, List_tech_storage, cPlantsSto, cMergedSto,
    List.filter]

/-! ## `check_chp` -/

/-- The configuration mapping (only `HorizonLength` is ever read). -/
structure Config where
  HorizonLength : ℕ
deriving DecidableEq

def chpKeys : List String := ["CHPType", "CHPPowerToHeat", "CHPPowerLossFactor"]

def chpNonNaNKeys : List String := ["CHPPowerToHeat", "CHPPowerLossFactor"]

def chpStrKeys : List String := ["CHPType"]

/-- Python `unitname = plants.loc[u,'Unit'] if 'Unit' in plants else str(u)`. -/
def unitnameOf (plants : Table) (u : String) (r : Row) : CheckM String :=
  if plants.hasCol "Unit" then do
    let v ← locM r "Unit"
    pure v.toLabel
  else pure u

/-- Mandatory-field presence loop of `check_chp`. -/
def chpKeyCheck (plants : Table) (key : String) : CheckM Unit :=
  if plants.hasCol key then pure ()
  else do
    logAt .critical (.chpMissingField key)
    exitWith 1

/-- Per-unit body of the `NonNaNKeys` loop of `check_chp`. -/
def chpNonNaNBody (plants : Table) (key : String) (ur : String × Row) :
    CheckM Unit := do
  let unitname ← unitnameOf plants ur.1 ur.2
  let v ← locM ur.2 key
  if v.isStr then do
    logAt .critical (.chpNonNumeric key)
    exitWith 1
  else pure ()
  if v.isNanV then do
    logAt .critical (.chpMissingData unitname key)
    exitWith 1
  else pure ()

/-- Per-unit body of the `StrKeys` loop of `check_chp`. -/
def chpStrBody (plants : Table) (key : String) (ur : String × Row) :
    CheckM Unit := do
  let unitname ← unitnameOf plants ur.1 ur.2
  let v ← locM ur.2 key
  match v with
  | .str s =>
      if s = "" then do
        logAt .critical (.chpEmptyValue unitname key)
        exitWith 1
      else pure ()
  | _ => do
      logAt .critical (.chpNumericInStr key)
      exitWith 1

/-- Source lines 208–214: reconcile an explicit `CHPMaxHeat` with the
intersection point `PowerCapacity / CHPPowerToHeat` of the extraction
envelope; returns the value `plant_MaxHeat` holds afterwards.  When the
explicit value exceeds the intersection the source warns and overwrites it
with the intersection; otherwise the explicit value is kept unchanged. -/
def extractionMaxHeat (intersection : F) (vMaxHeat : Value) : CheckM Value :=
  if vMaxHeat.isNullV = false then do
    let mh ← valToF vMaxHeat
    if F.lt intersection mh then do
      logAt .warning (.maxHeatNotIgnored mh intersection)
      pure (valOfF intersection)
    else pure vMaxHeat
  else pure (valOfF intersection)

/-- Per-unit body of the efficiency loop of `check_chp` (source lines
184–225); returns the `unitname` local, which Python leaks to the loops
that follow. -/
def chpEffBody (plants : Table) (ur : String × Row) : CheckM String := do
  let u := ur.1
  let r := ur.2
  let unitname ← unitnameOf plants u r
  let vPC ← locM r "PowerCapacity"
  let vMaxHeat ← locM r "CHPMaxHeat"
  let vPth ← locM r "CHPPowerToHeat"
  let vPlf ← locM r "CHPPowerLossFactor"
  let vType ← locM r "CHPType"
  let sType ← (match vType with
    | .str s => pure (pyLower s)
    | _ => raiseExc "AttributeError: lower")
  if (["extraction", "back-pressure", "p2h"].contains sType) = false then do
    logAt .critical (.badCHPType u vType.toLabel)
    exitWith 1
  else pure ()
  let pth ← valToF vPth
  if F.gt (F.q 0) pth && F.gt pth (F.q 10) then do
    logAt .critical (.badPowerToHeat u pth)
    exitWith 1
  else pure ()
  let plf ← valToF vPlf
  if (F.gt (F.q 0) plf && F.gt plf (F.q 1)) && decide (sType ≠ "p2h") then do
    logAt .critical (.badPowerLossFactor u plf)
    exitWith 1
  else pure ()
  if decide (sType = "back-pressure") && F.pyNe plf (F.q 0) then do
    logAt .critical (.backpressureLossNonzero u plf)
    exitWith 1
  else pure ()
  let vMaxHeat2 ←
    (if sType = "extraction" then do
      let pc ← valToF vPC
      extractionMaxHeat (F.div pc pth) vMaxHeat
    else pure vMaxHeat)
  if decide (sType ≠ "p2h") then do
    let pc ← valToF vPC
    let mh ← valToF vMaxHeat2
    let eff ← locF r "Efficiency"
    let fuel := F.div (F.add pc (F.mul plf mh)) eff
    let totalEff := F.div (F.add pc mh) fuel
    logAt .debug (.chpEffDebug u totalEff)
    if F.lt totalEff (F.q 0) || F.gt totalEff (F.q (mkRat 57 50)) then do
      logAt .critical (.chpEffUnrealistic unitname totalEff)
      exitWith 1
    else pure ()
    if F.gt totalEff (F.q (mkRat 19 20)) then
      logAt .warning (.chpEffHigh unitname totalEff)
    else pure ()
  else pure ()
  pure unitname

/-- The efficiency loop, threading the leaked `unitname` local. -/
def chpEffLoop (plants : Table) : List (String × Row) → String → CheckM String
  | [], acc => pure acc
  | ur :: rest, acc => do
      let un ← chpEffBody plants ur
      chpEffLoop plants rest un

/-- Optional `CHPMaxHeat ≤ 0` warning loop (source lines 228–232). -/
def chpMaxHeatBody (ur : String × Row) : CheckM Unit := do
  let v ← locM ur.2 "CHPMaxHeat"
  match v with
  | .num x => if x ≤ 0 then logAt .warning (.maxHeatShutsDown ur.1 (.q x)) else pure ()
  | .nan => pure ()
  | .str _ => raiseExc "TypeError"

/-- Optional heat-storage sizing loop (source lines 234–240); `unitname` is
the value leaked from the efficiency loop. -/
def chpStoCapBody (unitname : String) (ur : String × Row) : CheckM Unit := do
  let pc ← locF ur.2 "PowerCapacity"
  let pth ← locF ur.2 "CHPPowerToHeat"
  let qdot := F.div pc pth
  let sto ← locF ur.2 "STOCapacity"
  if F.lt sto (F.mul qdot (F.q (mkRat 1 2))) then
    logAt .warning (.stoCapLow unitname sto qdot)
  else if F.gt sto (F.mul qdot (F.q 24)) then
    logAt .warning (.stoCapHigh unitname sto qdot)
  else pure ()

/-- Optional self-discharge loop (source lines 242–251); note that the
`> 24` branch sits below the `> 1` branch of the same `elif` chain. -/
def chpSelfDisBody (unitname : String) (ur : String × Row) : CheckM Unit := do
  let x ← locF ur.2 "STOSelfDischarge"
  if F.lt x (F.q 0) then do
    logAt .error (.selfDisNegative unitname (F.mul x (F.q 100)))
    exitWith 1
  else if F.gt x (F.q 1) then
    logAt .warning (.selfDisVeryHigh unitname (F.mul x (F.q 100)))
  else if F.gt x (F.q 24) then do
    logAt .error (.selfDisTooHigh unitname (F.mul x (F.q 100)))
    exitWith 1
  else pure ()

def check_chp (config : Config) (plants : Table) : CheckM Bool := do
  iterate (chpKeyCheck plants) chpKeys
  iterate (fun key => iterate (chpNonNaNBody plants key) plants.irows) chpNonNaNKeys
  iterate (fun key => iterate (chpStrBody plants key) plants.irows) chpStrKeys
  let unitname ← chpEffLoop plants plants.irows ""
  (if plants.hasCol "CHPMaxHeat" then iterate chpMaxHeatBody plants.irows
   else pure ())
  (if plants.hasCol "STOCapacity" then
    iterate (chpStoCapBody unitname) plants.irows
   else pure ())
  (if plants.hasCol "STOSelfDischarge" then
    iterate (chpSelfDisBody unitname) plants.irows
   else pure ())
  pure true

/-- One-row CHP table row used by the concrete CHP examples. -/
def chpRow (unit chptype : String) (pth plf pc eff : ℚ) (mh : Value) : Row :=
  [("Unit", .str unit), ("CHPType", .str chptype), ("CHPPowerToHeat", .num pth),
   ("CHPPowerLossFactor", .num plf), ("PowerCapacity", .num pc),
   ("Efficiency", .num eff), ("CHPMaxHeat", mh)]

def chpCols : List String :=
  ["Unit", "CHPType", "CHPPowerToHeat", "CHPPowerLossFactor", "PowerCapacity",
   "Efficiency", "CHPMaxHeat"]

/-- One-row extraction-CHP table with the given parameters. -/
def chpTable (pth plf pc eff : ℚ) (mh : Value) : Table :=
  ⟨["0"], [chpRow "u1" "extraction" pth plf pc eff mh], chpCols⟩

/-- One-row extraction-CHP table with an additional `STOSelfDischarge`
column. -/
def chpTableSD (sd : ℚ) : Table :=
  ⟨["0"],
   [chpRow "u1" "extraction" 2 (mkRat 3 20) 100 (mkRat 2 5) .nan ++
     [("STOSelfDischarge", .num sd)]],
   chpCols ++ ["STOSelfDischarge"]⟩

/-- Claim C8: For an extraction CHP unit with `PowerCapacity = 100`,
`CHPPowerToHeat = 2`, `Efficiency = 0.4`, `CHPPowerLossFactor = 0.15` and a
null `CHPMaxHeat`, `check_chp` derives `MaxHeat = 100/2 = 50`, computes
`Fuel = (100 + 0.15·50)/0.4 = 268.75` and
`TotalEfficiency = 150/268.75 = 24/43 ≈ 0.558`, and passes: the only log
entry is the debug message with that efficiency (no fatal exit, no
high-efficiency warning), and the check returns `True`. -/
theorem check_chp_extraction_example :
    check_chp ⟨96⟩ (chpTable 2 (mkRat 3 20) 100 (mkRat 2 5) .nan) =
      ⟨[(.debug, .chpEffDebug "0" (.q (mkRat 24 43)))], .ok true⟩ ∧
    (100 : ℚ) / 2 = 50 ∧
    ((100 : ℚ) + (mkRat 3 20) * 50) / (mkRat 2 5) = 268.75 ∧
    ((100 : ℚ) + 50) / 268.75 = mkRat 24 43 ∧
    (0 : ℚ) ≤ mkRat 24 43 ∧ (mkRat 24 43 : ℚ) ≤ 1.14 ∧ (mkRat 24 43 : ℚ) ≤ 0.95 :=
  ⟨by decide, by norm_num,
   by rw [Rat.mkRat_eq_div]; norm_num,
   by rw [Rat.mkRat_eq_div]; norm_num,
   by rw [Rat.mkRat_eq_div]; norm_num,
   by rw [Rat.mkRat_eq_div]; norm_num,
   by rw [Rat.mkRat_eq_div]; norm_num⟩

/-- Counterexample to claim C1 as stated: for an extraction unit with
`PowerCapacity = 100`, `CHPPowerToHeat = 2` (derived bound `50`) and an
explicit `CHPMaxHeat = 30` smaller than the derived bound, `check_chp`
keeps the explicit value 30 — the debug message carries the efficiency
`130/261.25 = 104/209` computed from 30, not the value `24/43` that the
derived bound 50 would give — and emits no warning at all. -/
theorem check_chp_small_explicit_maxheat_kept :
    check_chp ⟨96⟩ (chpTable 2 (mkRat 3 20) 100 (mkRat 2 5) (.num 30)) =
      ⟨[(.debug, .chpEffDebug "0" (.q (mkRat 104 209)))], .ok true⟩ ∧
    (30 : ℚ) < 100 / 2 ∧
    ((100 : ℚ) + 30) / ((100 + (mkRat 3 20) * 30) / (mkRat 2 5)) = mkRat 104 209 ∧
    (mkRat 104 209 : ℚ) ≠ mkRat 24 43 :=
  ⟨by decide, by norm_num,
   by rw [Rat.mkRat_eq_div, Rat.mkRat_eq_div, Rat.mkRat_eq_div]; norm_num,
   by decide⟩

/-- Amended claim C1: In `check_chp`, for an `extraction` unit with an
explicit numeric `CHPMaxHeat` and derived bound
`d = PowerCapacity / CHPPowerToHeat`: when the explicit value is *larger*
than `d`, the derived (smaller) value replaces it for the subsequent
efficiency computation and a warning is emitted; when the explicit value is
smaller than or equal to `d`, the explicit value is kept and nothing is
logged. -/
theorem extractionMaxHeat_clamps_down (mh d : ℚ) :
    (d < mh →
      extractionMaxHeat (.q d) (.num mh) =
        ⟨[(.warning, .maxHeatNotIgnored (.q mh) (.q d))], .ok (.num d)⟩) ∧
    (mh ≤ d →
      extractionMaxHeat (.q d) (.num mh) = ⟨[], .ok (.num mh)⟩) := by
  constructor
  · intro h
    simp [extractionMaxHeat, Value.isNullV, valToF, valOfF, F.lt, h,
      CheckM.bind, logAt]
  · intro h
    simp [extractionMaxHeat, Value.isNullV, valToF, valOfF, F.lt,
      not_lt.mpr h, CheckM.bind]

/-- Witness for the amended C1 at `d = 50`: explicit 60 is clamped down to
50 with a warning, explicit 30 is kept. -/
theorem extractionMaxHeat_clamps_down_witness :
    ((50 : ℚ) < 60 ∧
      extractionMaxHeat (.q 50) (.num 60) =
        ⟨[(.warning, .maxHeatNotIgnored (.q 60) (.q 50))], .ok (.num 50)⟩) ∧
    ((30 : ℚ) ≤ 50 ∧ extractionMaxHeat (.q 50) (.num 30) = ⟨[], .ok (.num 30)⟩) :=
  ⟨⟨by norm_num, (extractionMaxHeat_clamps_down 60 50).1 (by norm_num)⟩,
   ⟨by norm_num, (extractionMaxHeat_clamps_down 30 50).2 (by norm_num)⟩⟩

/-- Claim C2 (code bug): A thermal-storage self-discharge rate of 25 (above the claimed
fatal threshold 24) does *not* terminate `check_chp`: the `> 24` branch of
the source sits below the `> 1` branch of the same `elif` chain and is
unreachable, so the value only triggers the "very high" warning and the
check returns `True`. -/
theorem check_chp_selfdischarge_above_24_only_warns :
    (24 : ℚ) < 25 ∧
    check_chp ⟨96⟩ (chpTableSD 25) =
      ⟨[(.debug, .chpEffDebug "0" (.q (mkRat 24 43))),
        (.warning, .selfDisVeryHigh "u1" (.q 2500))], .ok true⟩ :=
  ⟨by norm_num, by decide⟩

/-- Claim C3 (code bug): A `CHPPowerLossFactor` of 1.5 — outside the claimed range
[0, 1) — on an extraction unit does *not* make `check_chp` fail: the
source guard `0 > plant_powerlossfactor > 1` is a Python chained comparison
that is always false, so the unit passes with only the debug message
(efficiency `150/437.5 = 12/35`). -/
theorem check_chp_lossfactor_out_of_range_passes :
    ¬((0 : ℚ) ≤ mkRat 3 2 ∧ (mkRat 3 2 : ℚ) < 1) ∧
    check_chp ⟨96⟩ (chpTable 2 (mkRat 3 2) 100 (mkRat 2 5) .nan) =
      ⟨[(.debug, .chpEffDebug "0" (.q (mkRat 12 35)))], .ok true⟩ :=
  ⟨by decide, by decide⟩

/-! ## `check_units` -/

def cuKeysBase : List String :=
  ["Unit", "Fuel", "Zone", "Technology", "PowerCapacity", "PartLoadMin",
   "RampUpRate", "RampDownRate", "StartUpTime", "MinUpTime", "MinDownTime",
   "NoLoadCost", "StartUpCost", "Efficiency", "CO2Intensity"]

def cuNonNaNBase : List String :=
  ["PowerCapacity", "PartLoadMin", "RampUpRate", "RampDownRate", "Efficiency",
   "RampingCost", "CO2Intensity"]

def cuStrKeys : List String := ["Unit", "Zone", "Fuel", "Technology"]

/-- The `keys` list after the optional `keys.append('Nunits')`. -/
def cuKeys (plants : Table) : List String :=
  cuKeysBase ++ (if plants.hasCol "Nunits" then ["Nunits"] else [])

/-- The `NonNaNKeys` list after the optional `NonNaNKeys.append('Nunits')`. -/
def cuNonNaN (plants : Table) : List String :=
  cuNonNaNBase ++ (if plants.hasCol "Nunits" then ["Nunits"] else [])

/-- Python `float(x).is_integer()` on a cell. -/
def floatIsInteger : Value → CheckM Bool
  | .num x => pure (decide (x.den = 1))
  | .nan => pure false
  | .str _ => raiseExc "ValueError: could not convert string to float"

/-- Python comprehension `[not float(x).is_integer() for x in plants['Nunits']]`. -/
def notIntegerFlags : List Value → CheckM (List Bool)
  | [] => pure []
  | v :: rest => do
      let b ← floatIsInteger v
      let bs ← notIntegerFlags rest
      pure ((!b) :: bs)

/-- Special treatment of the optional `Nunits` column (source lines 267–274). -/
def cuNunitsStage (plants : Table) : CheckM Unit :=
  if plants.hasCol "Nunits" then do
    let bs ← notIntegerFlags (plants.col "Nunits")
    if bs.any id then do
      logAt .error .nunitsNotInteger
      exitWith 1
    else pure ()
  else logAt .info .nunitsAbsent

/-- Mandatory-column presence loop of `check_units`. -/
def cuKeyCheck (plants : Table) (key : String) : CheckM Unit :=
  if plants.hasCol key then pure ()
  else do
    logAt .critical (.missingField key)
    exitWith 1

/-- Per-unit body of the `NonNaNKeys` loop of `check_units`. -/
def cuNonNaNBody (key : String) (ur : String × Row) : CheckM Unit := do
  let v ← locM ur.2 key
  if v.isStr then do
    logAt .critical (.nonNumericValue key)
    exitWith 1
  else pure ()
  if v.isNanV then do
    logAt .critical (.missingDataUnit ur.1 key)
    exitWith 1
  else pure ()

/-- Per-unit body of the `StrKeys` loop of `check_units`. -/
def cuStrBody (key : String) (ur : String × Row) : CheckM Unit := do
  let v ← locM ur.2 key
  match v with
  | .str s =>
      if s = "" then do
        logAt .critical (.emptyValue ur.1 key)
        exitWith 1
      else pure ()
  | _ => do
      logAt .critical (.numericInStrCol key)
      exitWith 1

/-- Pandas `plants['Unit'][plants['Unit'].duplicated()].tolist()`: every entry that
repeats an earlier occurrence. -/
def dupsAux (seen : List Value) : List Value → List Value
  | [] => []
  | x :: xs => (if seen.contains x then [x] else []) ++ dupsAux (seen ++ [x]) xs

def cuDuplicates (plants : Table) : List Value := dupsAux [] (plants.col "Unit")

/-- Pandas `plants.Zone[plants['Unit'] == duplicates[0]].tolist()`. -/
def zonesOfFirstDup (plants : Table) (d : Value) : List Value :=
  ((plants.rows.filter (fun r => decide ((Row.get r "Unit").getD Value.nan = d))).map
    (fun r => (Row.get r "Zone").getD Value.nan))

/-- Unit-name uniqueness check (source lines 311–314); the condition
`len(unique) != len(list)` holds exactly when the duplicates list is
nonempty. -/
def cuUniqStage (plants : Table) : CheckM Unit :=
  match cuDuplicates plants with
  | [] => pure ()
  | d :: rest => do
      logAt .error (.duplicateUnits ((d :: rest).map Value.toLabel)
        ((zonesOfFirstDup plants d).map Value.toLabel))
      exitWith 1

/-- Element-wise comparison of a column with a scalar (`NaN` compares false,
a string operand raises `TypeError`). -/
def seriesFlags (f : ℚ → Bool) : List Value → CheckM (List Bool)
  | [] => pure []
  | .num x :: rest => do
      let bs ← seriesFlags f rest
      pure (f x :: bs)
  | .nan :: rest => do
      let bs ← seriesFlags f rest
      pure (false :: bs)
  | .str _ :: _ => raiseExc "TypeError"

/-- Python `plantlist = plants[<flags>]['Unit'].tolist()`. -/
def unitsWhere (plants : Table) (flags : List Bool) : List String :=
  ((plants.rows.zip flags).filter (fun rf => rf.2)).map
    (fun rf => ((Row.get rf.1 "Unit").getD Value.nan).toLabel)

def lowerPairs : List (String × ℚ) :=
  [("PowerCapacity", 0), ("PartLoadMin", 0), ("StartUpTime", 0),
   ("MinUpTime", 0), ("MinDownTime", 0), ("NoLoadCost", 0), ("StartUpCost", 0)]

def lowerHardPairs (plants : Table) : List (String × ℚ) :=
  [("RampUpRate", 0), ("RampDownRate", 0), ("Efficiency", 0)] ++
    (if plants.hasCol "Nunits" then [("Nunits", 0)] else [])

def higherPairs : List (String × ℚ) := [("PartLoadMin", 1), ("Efficiency", 1)]

def higherTimeKeys : List String := ["MinUpTime", "MinDownTime"]

/-- One bound check: flag the offending rows, and on any flag log the given
message with the offending unit names and exit. -/
def cuBoundBody (plants : Table) (mk : String → List String → Msg)
    (f : ℚ → ℚ → Bool) (kb : String × ℚ) : CheckM Unit := do
  let flags ← seriesFlags (fun x => f x kb.2) (plants.col kb.1)
  if flags.any id then do
    logAt .critical (mk kb.1 (unitsWhere plants flags))
    exitWith 1
  else pure ()

/-- The `higher_time` loop: `plants[key] >= config['HorizonLength'] * 24`. -/
def cuHorizonBody (config : Config) (plants : Table) (key : String) :
    CheckM Unit := do
  let flags ← seriesFlags
    (fun x => decide ((mkRat (config.HorizonLength * 24) 1) ≤ x)) (plants.col key)
  if flags.any id then do
    logAt .critical (.valueAboveHorizon key (mkRat (config.HorizonLength * 24) 1)
      (unitsWhere plants flags))
    exitWith 1
  else pure ()

/-- The stages of `check_units` preceding the uniqueness check. -/
def cuPrelim (plants : Table) : CheckM Unit := do
  cuNunitsStage plants
  iterate (cuKeyCheck plants) (cuKeys plants)
  iterate (fun key => iterate (cuNonNaNBody key) plants.irows) (cuNonNaN plants)
  iterate (fun key => iterate (cuStrBody key) plants.irows) cuStrKeys

/-- The numeric-range loops of `check_units` (after the uniqueness check). -/
def cuBounds (config : Config) (plants : Table) : CheckM Unit := do
  iterate (cuBoundBody plants .valueBelow (fun x b => decide (x < b))) lowerPairs
  iterate (cuBoundBody plants .valueNotStrictlyAbove (fun x b => decide (x ≤ b)))
    (lowerHardPairs plants)
  iterate (cuBoundBody plants .valueAbove (fun x b => decide (b < x))) higherPairs
  iterate (cuHorizonBody config plants) higherTimeKeys

def check_units (config : Config) (plants : Table) : CheckM Bool := do
  cuPrelim plants
  cuUniqStage plants
  cuBounds config plants
  pure true

/-- Claim C9: For every unit table that passes the field checks preceding the
uniqueness check, if some `Unit` name occurs more than once then
`check_units` exits with code 1 and logs an error enumerating every
duplicated entry together with the zones in which the first duplicated name
occurs; if all unit names are unique, the uniqueness check passes. -/
theorem check_units_duplicate_names (config : Config) (plants : Table)
    (hpre : (cuPrelim plants).out = .ok ()) :
    (∀ d rest, cuDuplicates plants = d :: rest →
      (check_units config plants).out = .exit 1 ∧
      (Level.error,
        Msg.duplicateUnits ((d :: rest).map Value.toLabel)
          ((zonesOfFirstDup plants d).map Value.toLabel)) ∈
        (check_units config plants).log) ∧
    (cuDuplicates plants = [] → (cuUniqStage plants).out = .ok ()) := by
  have hwhole : check_units config plants =
      CheckM.bind (cuPrelim plants)
        (fun _ => CheckM.bind (cuUniqStage plants)
          (fun _ => CheckM.bind (cuBounds config plants)
            (fun _ => (pure true : CheckM Bool)))) := rfl
  constructor
  · intro d rest hdup
    have huniq : cuUniqStage plants =
        ⟨[(.error, .duplicateUnits ((d :: rest).map Value.toLabel)
            ((zonesOfFirstDup plants d).map Value.toLabel))], .exit 1⟩ := by
      unfold cuUniqStage
      rw [hdup]
      simp [CheckM.bind, logAt, exitWith]
    rw [hwhole, bind_ok_eq _ _ () hpre, bind_exit_eq _ _ 1 (by rw [huniq]), huniq]
    refine ⟨rfl, ?_⟩
    simp
  · intro hdup
    simp [cuUniqStage, hdup]

/-- A row with all fifteen mandatory `check_units` columns plus
`RampingCost`, all valid. -/
def cuRow (unit zone : String) (pc : ℚ) : Row :=
  [("Unit", .str unit), ("Fuel", .str "NG"), ("Zone", .str zone),
   ("Technology", .str "GAS"), ("PowerCapacity", .num pc), ("PartLoadMin", .num 0),
   ("RampUpRate", .num 1), ("RampDownRate", .num 1), ("StartUpTime", .num 0),
   ("MinUpTime", .num 0), ("MinDownTime", .num 0), ("NoLoadCost", .num 0),
   ("StartUpCost", .num 0), ("Efficiency", .num 1), ("CO2Intensity", .num 0),
   ("RampingCost", .num 1)]

/-- Two-row table whose `Unit` name "u1" is duplicated across zones Z1, Z2. -/
def dupTable : Table :=
  ⟨["0", "1"], [cuRow "u1" "Z1" 100, cuRow "u1" "Z2" 50],
   cuKeysBase ++ ["RampingCost"]⟩

/-- Witness for C9: the duplicated table exits fatally with the enumerating
message. -/
theorem check_units_duplicate_names_witness :
    (check_units ⟨96⟩ dupTable).out = .exit 1 ∧
    (Level.error, Msg.duplicateUnits ["u1"] ["Z1", "Z2"]) ∈
      (check_units ⟨96⟩ dupTable).log := by
  have h := (check_units_duplicate_names ⟨96⟩ dupTable (by decide)).1
    (.str "u1") [] (by decide)
  exact ⟨h.1, h.2⟩

theorem cuKeyCheck_ok_log (plants : Table) (key : String)
    (h : (cuKeyCheck plants key).out = .ok ()) : (cuKeyCheck plants key).log = [] := by
  by_cases hc : plants.hasCol key
  · simp [cuKeyCheck, hc]
  · simp [cuKeyCheck, hc, CheckM.bind, logAt, exitWith] at h

theorem cuNonNaNBody_ok_log (key : String) (ur : String × Row)
    (h : (cuNonNaNBody key ur).out = .ok ()) : (cuNonNaNBody key ur).log = [] := by
  rcases hg : Row.get ur.2 key with _ | v
  · simp [cuNonNaNBody, locM, hg, CheckM.bind, raiseExc] at h
  · cases v with
    | num x =>
        simp [cuNonNaNBody, locM, hg, CheckM.bind, Value.isStr, Value.isNanV]
    | nan =>
        simp [cuNonNaNBody, locM, hg, CheckM.bind, Value.isStr, Value.isNanV,
          logAt, exitWith] at h
    | str s =>
        simp [cuNonNaNBody, locM, hg, CheckM.bind, Value.isStr, Value.isNanV,
          logAt, exitWith] at h

theorem floatIsInteger_log (v : Value) : (floatIsInteger v).log = [] := by
  cases v <;> rfl

theorem notIntegerFlags_log (vs : List Value) : (notIntegerFlags vs).log = [] := by
  induction vs with
  | nil => rfl
  | cons v rest ih =>
      show (CheckM.bind (floatIsInteger v) _).log = []
      rcases hv : (floatIsInteger v).out with b | c | s
      · rw [bind_ok_eq _ _ b hv]
        have hrec : (CheckM.bind (notIntegerFlags rest)
            (fun bs => (pure ((!b) :: bs) : CheckM (List Bool)))).log = [] := by
          rcases hr : (notIntegerFlags rest).out with bs | c | s
          · rw [bind_ok_eq _ _ bs hr]; simp [ih]
          · rw [bind_exit_eq _ _ c hr]; simpa using ih
          · rw [bind_raise_eq _ _ s hr]; simpa using ih
        simpa [floatIsInteger_log] using hrec
      · rw [bind_exit_eq _ _ c hv]; simpa using floatIsInteger_log v
      · rw [bind_raise_eq _ _ s hv]; simpa using floatIsInteger_log v

theorem cuNunitsStage_ok_log (plants : Table)
    (h : (cuNunitsStage plants).out = .ok ()) :
    (cuNunitsStage plants).log = [] ∨
      (cuNunitsStage plants).log = [(.info, .nunitsAbsent)] := by
  by_cases hc : plants.hasCol "Nunits"
  · left
    have hstage : cuNunitsStage plants =
        CheckM.bind (notIntegerFlags (plants.col "Nunits"))
          (fun bs =>
            if bs.any id then
              CheckM.bind (logAt .error .nunitsNotInteger) (fun _ => exitWith 1)
            else pure ()) := by
      simp [cuNunitsStage, hc]
    rcases ho : (notIntegerFlags (plants.col "Nunits")).out with bs | c | s
    · rw [hstage, bind_ok_eq _ _ bs ho] at h ⊢
      cases hbs : bs.any id
      · simp [hbs, notIntegerFlags_log]
      · simp [hbs, CheckM.bind, logAt, exitWith] at h
    · rw [hstage, bind_exit_eq _ _ c ho] at h
      cases h
    · rw [hstage, bind_raise_eq _ _ s ho] at h
      cases h
  · right
    simp [cuNunitsStage, hc, logAt]

/-- Claim C10: `check_units` requires a numeric `RampingCost` column even
though `RampingCost` is not in the mandatory-column list: for every table
with at least one row whose first row lacks a `RampingCost` cell, once the
`Nunits` treatment, the mandatory-column loop and the value checks of the
keys preceding `RampingCost` pass, the per-unit missing-value loop performs
an unguarded lookup of the absent column, so `check_units` raises a
`KeyError` — it neither returns `True` nor logs the mandatory-column
critical message for `RampingCost`. -/
theorem check_units_rampingcost_unguarded (config : Config) (plants : Table)
    (ur : String × Row) (rest : List (String × Row))
    (hirows : plants.irows = ur :: rest)
    (hcell : Row.get ur.2 "RampingCost" = none)
    (h1 : (cuNunitsStage plants).out = .ok ())
    (h2 : (iterate (cuKeyCheck plants) (cuKeys plants)).out = .ok ())
    (h3 : ∀ k ∈ (["PowerCapacity", "PartLoadMin", "RampUpRate", "RampDownRate",
        "Efficiency"] : List String),
      (iterate (cuNonNaNBody k) plants.irows).out = .ok ()) :
    (check_units config plants).out = .raise "KeyError: RampingCost" ∧
    (Level.critical, Msg.missingField "RampingCost") ∉
      (check_units config plants).log := by
  have hbody : cuNonNaNBody "RampingCost" ur = ⟨[], .raise "KeyError: RampingCost"⟩ := by
    simp [cuNonNaNBody, locM, hcell, CheckM.bind, raiseExc]
  have hinner : iterate (cuNonNaNBody "RampingCost") plants.irows =
      ⟨[], .raise "KeyError: RampingCost"⟩ := by
    rw [hirows, iterate_cons, bind_raise_eq _ _ _ (by rw [hbody]), hbody]
  have hearlier : ∀ k ∈ (["PowerCapacity", "PartLoadMin", "RampUpRate",
      "RampDownRate", "Efficiency"] : List String),
      iterate (cuNonNaNBody k) plants.irows = ⟨[], .ok ()⟩ := fun k hk =>
    iterate_ok_eq _ _ (fun x _ => cuNonNaNBody_ok_log k x) (h3 k hk)
  have hstage : iterate (fun key => iterate (cuNonNaNBody key) plants.irows)
      (cuNonNaN plants) = ⟨[], .raise "KeyError: RampingCost"⟩ := by
    have hsplit : cuNonNaN plants =
        ["PowerCapacity", "PartLoadMin", "RampUpRate", "RampDownRate",
          "Efficiency"] ++ "RampingCost" ::
          ("CO2Intensity" :: (if plants.hasCol "Nunits" then ["Nunits"] else [])) := rfl
    rw [hsplit]
    exact iterate_raise_at _ _ _ _ _ hearlier hinner
  have hkeys : iterate (cuKeyCheck plants) (cuKeys plants) = ⟨[], .ok ()⟩ :=
    iterate_ok_eq _ _ (fun x _ => cuKeyCheck_ok_log plants x) h2
  have hprelim : cuPrelim plants =
      ⟨(cuNunitsStage plants).log, .raise "KeyError: RampingCost"⟩ := by
    have hexp : cuPrelim plants =
        CheckM.bind (cuNunitsStage plants)
          (fun _ => CheckM.bind (iterate (cuKeyCheck plants) (cuKeys plants))
            (fun _ => CheckM.bind
              (iterate (fun key => iterate (cuNonNaNBody key) plants.irows)
                (cuNonNaN plants))
              (fun _ => iterate (fun key => iterate (cuStrBody key) plants.irows)
                cuStrKeys))) := rfl
    rw [hexp, bind_ok_eq _ _ () h1, bind_ok_eq _ _ () (by rw [hkeys]), hkeys,
      bind_raise_eq _ _ _ (by rw [hstage]), hstage]
    simp
  have hwhole : check_units config plants =
      ⟨(cuNunitsStage plants).log, .raise "KeyError: RampingCost"⟩ := by
    have hexp : check_units config plants =
        CheckM.bind (cuPrelim plants)
          (fun _ => CheckM.bind (cuUniqStage plants)
            (fun _ => CheckM.bind (cuBounds config plants)
              (fun _ => (pure true : CheckM Bool)))) := rfl
    rw [hexp, bind_raise_eq _ _ _ (by rw [hprelim]), hprelim]
  refine ⟨by rw [hwhole], ?_⟩
  rw [hwhole]
  rcases cuNunitsStage_ok_log plants h1 with hl | hl <;> simp [hl]

/-- One-row table with all fifteen mandatory columns valid but no
`RampingCost` column. -/
def noRampTable : Table :=
  ⟨["0"],
   [[("Unit", .str "u1"), ("Fuel", .str "NG"), ("Zone", .str "Z1"),
     ("Technology", .str "GAS"), ("PowerCapacity", .num 100),
     ("PartLoadMin", .num 0), ("RampUpRate", .num 1), ("RampDownRate", .num 1),
     ("StartUpTime", .num 0), ("MinUpTime", .num 0), ("MinDownTime", .num 0),
     ("NoLoadCost", .num 0), ("StartUpCost", .num 0), ("Efficiency", .num 1),
     ("CO2Intensity", .num 0)]],
   cuKeysBase⟩

/-- Witness for C10: the valid table lacking `RampingCost` makes
`check_units` raise, with no mandatory-column message for that field. -/
theorem check_units_rampingcost_unguarded_witness :
    (check_units ⟨96⟩ noRampTable).out = .raise "KeyError: RampingCost" ∧
    (Level.critical, Msg.missingField "RampingCost") ∉
      (check_units ⟨96⟩ noRampTable).log := by
  have h := check_units_rampingcost_unguarded ⟨96⟩ noRampTable
    ("0", noRampTable.rows.headI) [] (by decide) (by decide) (by decide)
    (by decide) (by decide)
  exact ⟨h.1, h.2⟩

/-! ## `check_AvailabilityFactors` -/

/-- A row as `check_AvailabilityFactors` reads it via `iterrows`
(`v['Unit']`, `v['Technology']`). -/
structure PRow where
  Unit : String
  Technology : String
deriving DecidableEq

/-- The availability-factor table: one float series per column name. -/
abbrev AFTable := List (String × List F)

def RES : List String := ["WTON", "WTOF", "PHOT", "HROR"]

/-- Per-unit body of `check_AvailabilityFactors`. -/
def afBody (AF : AFTable) (v : PRow) : CheckM Unit := do
  if RES.contains v.Technology && !(AF.any (fun c => decide (c.1 = v.Unit))) then do
    logAt .error (.afMissingFatal v.Unit v.Technology)
    raiseExc ("Please provide RES AF timeseries for " ++ v.Unit)
  else pure ()
  match AF.find? (fun c => decide (c.1 = v.Unit)) with
  | some c => do
      if c.2.any (fun x => x.isnan) then
        logAt .warning (.afEmpty v.Unit v.Technology c.2.length)
      else pure ()
      let df_af := c.2.filter (fun x => !x.isnan)
      if df_af.all (fun x => decide (x = F.q 1)) then
        logAt .debug (.afAlwaysOne v.Unit v.Technology)
      else pure ()
      if df_af.any (fun x => F.lt x (F.q 0) || F.gt x (F.q 1)) then
        logAt .error (.afOutOfRange v.Unit v.Technology
          ((df_af.filter (fun x => F.gt x (F.q 1))).length)
          ((df_af.filter (fun x => F.lt x (F.q 0))).length))
      else pure ()
  | none => logAt .error (.afMissingDefault v.Unit v.Technology)

def check_AvailabilityFactors (plants : List PRow) (AF : AFTable) : CheckM Unit :=
  iterate (afBody AF) plants

/-- Counterexample to claim C5 as stated: a
variable-renewable unit entirely absent from the AF table makes
`check_AvailabilityFactors` log at *error* level and terminate by *raising a
`ValueError`* that propagates to the caller; the outcome is a raised
exception, not a `sys.exit` after a critical message. -/
theorem check_af_missing_vre_raises_not_exits :
    check_AvailabilityFactors [⟨"u1", "WTON"⟩] [] =
      ⟨[(.error, .afMissingFatal "u1" "WTON")],
        .raise "Please provide RES AF timeseries for u1"⟩ := by
  decide

/-- Amended claim C5: For every variable-renewable unit with no
corresponding column in the availability-factor table,
`check_AvailabilityFactors` logs an error-level message and raises a
`ValueError` naming the unit; the exception propagates to the caller
(the function does not call `sys.exit` here). -/
theorem check_af_missing_vre_raises (u t : String) (AF : AFTable)
    (ht : t ∈ RES) (hAF : ∀ c ∈ AF, c.1 ≠ u) :
    check_AvailabilityFactors [⟨u, t⟩] AF =
      ⟨[(.error, .afMissingFatal u t)],
        .raise ("Please provide RES AF timeseries for " ++ u)⟩ := by
  have hc : RES.contains t = true := by simpa using ht
  have hany : (List.any AF fun c => decide (c.1 = u)) = false := by
    rw [List.any_eq_false]
    intro c hcm
    simpa using hAF c hcm
  simp only [check_AvailabilityFactors, iterate, afBody, monad_bind_eq, hc, hany]
  simp [CheckM.bind, logAt, raiseExc]

/-- Witness for the amended C5 at a concrete unit and a nonempty AF table
without its column. -/
theorem check_af_missing_vre_raises_witness :
    check_AvailabilityFactors [⟨"u2", "PHOT"⟩] [("u9", [F.q 1])] =
      ⟨[(.error, .afMissingFatal "u2" "PHOT")],
        .raise "Please provide RES AF timeseries for u2" ⟩ :=
  check_af_missing_vre_raises "u2" "PHOT" [("u9", [F.q 1])] (by decide) (by decide)

/-! ## `check_heat_demand` -/

/-- pandas `.max()` (NaN entries skipped; NaN when nothing remains). -/
def seriesMax (xs : List F) : F :=
  match xs.filterMap (fun x => match x with | F.q v => some v | _ => none) with
  | [] => F.nan
  | v :: rest => F.q (rest.foldl max v)

/-- pandas `.min()`. -/
def seriesMin (xs : List F) : F :=
  match xs.filterMap (fun x => match x with | F.q v => some v | _ => none) with
  | [] => F.nan
  | v :: rest => F.q (rest.foldl min v)

/-- Python `plants.index = plants['Unit']`: the in-place index overwrite at the
top of `check_heat_demand`. -/
def setIndexToUnit (plants : Table) : Table :=
  { plants with
      index := plants.rows.map (fun r => ((Row.get r "Unit").getD Value.nan).toLabel) }

/-- Per-column body of `check_heat_demand` (source lines 362–398).  In the
invalid-`CHPType` branch the source logs an error and then hits unbound
`Qmin`/`Qmax` locals; the `NameError` of a first iteration is modelled (a
leak of the locals from a previous iteration is not). -/
def hdBody (plants : Table) (data : List (String × List F))
    (c : String × List F) : CheckM Unit := do
  let u := c.1
  if plants.index.contains u then do
    let r ← (match plants.irows.find? (fun ir => decide (ir.1 = u)) with
      | some ir => pure ir.2
      | none => raiseExc "KeyError")
    let nunits ←
      (if plants.hasCol "Nunits" then locF r "Nunits"
       else pure (F.q 1))
    (if (data.any (fun cc => decide (cc.1 = u))) = false then do
      logAt .error (.hdNotFound u)
      exitWith 1
    else if c.2.all (fun x => decide (x = F.q 0)) then
      logAt .critical (.hdZero u)
    else pure ())
    let vType ← locM r "CHPType"
    let sType ← (match vType with
      | .str s => pure (pyLower s)
      | _ => raiseExc "AttributeError: lower")
    let vMaxHeat ← locM r "CHPMaxHeat"
    let plant_Qmax ←
      (if vMaxHeat.isNullV then pure F.inf
       else valToF vMaxHeat)
    let qminmax ←
      (if sType = "extraction" then do
        let pc ← locF r "PowerCapacity"
        let pth ← locF r "CHPPowerToHeat"
        pure ((F.q 0, F.mul (F.pyMin (F.div pc pth) plant_Qmax) nunits))
      else if sType = "back-pressure" then do
        let pc ← locF r "PowerCapacity"
        let plm ← locF r "PartLoadMin"
        let pth ← locF r "CHPPowerToHeat"
        pure ((F.div (F.mul pc plm) pth,
          F.mul (F.pyMin (F.div pc pth) plant_Qmax) nunits))
      else if sType = "p2h" then
        pure ((F.q 0, F.mul plant_Qmax nunits))
      else do
        logAt .error (.hdInvalidType u)
        raiseExc "NameError: Qmax")
    (if F.isnan qminmax.2 && decide (sType ≠ "p2h") then do
      logAt .error (.hdPthUndefined u)
      exitWith 1
    else if F.gt (seriesMax c.2) qminmax.2 then
      logAt .warning (.hdAboveQmax u (seriesMax c.2) qminmax.2)
    else pure ())
    if F.lt (seriesMin c.2) qminmax.1 then
      logAt .warning (.hdBelowQmin u (seriesMin c.2) qminmax.1)
    else pure ()
  else logAt .warning (.hdNoPlant u)

/-- The loop and `return True` of `check_heat_demand`. -/
def hdLoop (plants : Table) (data : List (String × List F)) : CheckM Bool := do
  iterate (hdBody plants data) data
  pure true

/-- Model of `check_heat_demand` with the state of the `plants` table made explicit:
the returned table is the caller's table after the call (the source
overwrites `plants.index` in place before validating; when the `Unit`
column is missing, that line raises `KeyError` and the table is left
untouched). -/
def check_heat_demand (plants : Table) (data : List (String × List F)) :
    Table × CheckM Bool :=
  if plants.hasCol "Unit" then
    (setIndexToUnit plants, hdLoop (setIndexToUnit plants) data)
  else (plants, raiseExc "KeyError: Unit")

/-- Counterexample to claim C4: `check_heat_demand` does not leave its input
table unchanged — on a table with default index `["0"]` and unit name
`u1`, the table after the call differs from the input: its index has been
overwritten with the `Unit` column. -/
theorem check_heat_demand_mutates_input :
    (check_heat_demand ⟨["0"], [[("Unit", .str "u1")]], ["Unit"]⟩ []).1 ≠
      ⟨["0"], [[("Unit", .str "u1")]], ["Unit"]⟩ ∧
    (check_heat_demand ⟨["0"], [[("Unit", .str "u1")]], ["Unit"]⟩ []).1.index = ["u1"] := by
  exact ⟨by decide, by decide⟩

/-- Amended claim C4: Of the checkers, only `check_heat_demand` mutates an
input: it overwrites the unit table's index with the `Unit` column (rows
and columns are untouched); every other checker here is a pure function of
its inputs whose only effects are its log and its outcome. -/
theorem check_heat_demand_sets_index (plants : Table)
    (data : List (String × List F)) (h : plants.hasCol "Unit" = true) :
    (check_heat_demand plants data).1.index =
      plants.rows.map (fun r => ((Row.get r "Unit").getD Value.nan).toLabel) ∧
    (check_heat_demand plants data).1.rows = plants.rows ∧
    (check_heat_demand plants data).1.columns = plants.columns := by
  simp [check_heat_demand, h, setIndexToUnit]

/-- Witness for the amended C4 at a concrete table. -/
theorem check_heat_demand_sets_index_witness :
    (check_heat_demand ⟨["7"], [[("Unit", .str "chp1")]], ["Unit"]⟩
        [("x", [F.q 1])]).1.index = ["chp1"] ∧
    (check_heat_demand ⟨["7"], [[("Unit", .str "chp1")]], ["Unit"]⟩
        [("x", [F.q 1])]).1.rows = [[("Unit", .str "chp1")]] := by
  have h := check_heat_demand_sets_index ⟨["7"], [[("Unit", .str "chp1")]], ["Unit"]⟩
    [("x", [F.q 1])] (by decide)
  exact ⟨h.1.trans (by decide), h.2.1⟩

end DataCheck
